import Mathlib

/-!
Verification of the FuzzySearchTool search engine
(`src/packages/injected/src/recorder/fuzzySearchTool.ts`, with the second
variant of the same tool in `src/unnamed/part_001`).

The development shallowly embeds the search pipeline:
* JavaScript string primitives are modelled structurally on `List Char`
  (ASCII case folding; the JS `\s` class is modelled by its common members),
  so that every definition evaluates inside the kernel.
* The DOM subtree under `document.body` is a rose tree `Dom`; an element is
  addressed by its child-index path from the body, `Element.contains` is the
  path-extension test, and document (pre)order is lexicographic path order.
* The asynchronous debounce scheduler is an explicit event-step machine.
-/

-- ===========================================================================
-- JavaScript string primitives, modelled on List Char
-- ===========================================================================

/-- ASCII case folding, the fragment of `String.prototype.toLowerCase`
relevant to the queries and texts handled by the tool. -/
def jsLowerChar (c : Char) : Char :=
  if 'A' ≤ c ∧ c ≤ 'Z' then Char.ofNat (c.toNat + 32) else c

/-- Membership in the JS `\s` character class (whitespace). -/
def isJsSpace (c : Char) : Bool :=
  c.toNat = 32 || c.toNat = 9 || c.toNat = 10 || c.toNat = 13 ||
    c.toNat = 11 || c.toNat = 12 || c.toNat = 160 || c.toNat = 65279

/-- JS `\w` word-character class: `[A-Za-z0-9_]`. -/
def isJsWordChar (c : Char) : Bool :=
  ('a' ≤ c && c ≤ 'z') || ('A' ≤ c && c ≤ 'Z') || ('0' ≤ c && c ≤ '9') || c = '_'

/-- ASCII letter, the `/i`-insensitive `[a-z]` class. -/
def isAsciiLetter (c : Char) : Bool :=
  ('a' ≤ c && c ≤ 'z') || ('A' ≤ c && c ≤ 'Z')

/-- Whether the first list starts with the second list (needle). -/
def hasLead : List Char → List Char → Bool
  | [], _ => true
  | _ :: _, [] => false
  | a :: as, b :: bs => a = b && hasLead as bs

/-- Whether `needle` occurs as a contiguous sublist of the second list;
this is `String.prototype.includes` on character lists. -/
def listSubstr (needle : List Char) : List Char → Bool
  | [] => hasLead needle []
  | c :: rest => hasLead needle (c :: rest) || listSubstr needle rest

/-- `String.prototype.trim`. -/
def jsTrim (s : String) : String :=
  String.mk (((s.data.dropWhile isJsSpace).reverse.dropWhile isJsSpace).reverse)

/-- `String.prototype.toLowerCase` (ASCII fragment). -/
def jsToLower (s : String) : String :=
  String.mk (s.data.map jsLowerChar)

/-- `String.prototype.startsWith`. -/
def jsStartsWith (s p : String) : Bool :=
  hasLead p.data s.data

/-- `String.prototype.endsWith`. -/
def jsEndsWith (s p : String) : Bool :=
  hasLead p.data.reverse s.data.reverse

/-- `String.prototype.includes`. -/
def jsIncludes (s sub : String) : Bool :=
  listSubstr sub.data s.data

/-- `s.slice(n)` for a nonnegative start index. -/
def jsSliceFrom (s : String) (n : Nat) : String :=
  String.mk (s.data.drop n)

/-- `s.slice(1, -1)`: strip the first and the last character. -/
def jsSliceInner (s : String) : String :=
  String.mk ((s.data.drop 1).dropLast)

-- ===========================================================================
-- SearchMode / SearchState and navigation (fuzzySearchTool.ts lines 50-57,
-- 293-312, 368-386; part_001 lines 255-277, 348-364)
-- ===========================================================================

/-- `SearchMode` from fuzzySearchTool.ts. -/
inductive SearchMode where
  | auto
  | locator
  | aria
  | text
deriving DecidableEq

/-- An element is addressed by its child-index path below `document.body`. -/
abbrev ElemPath := List Nat

/-- `SearchState` from fuzzySearchTool.ts: `currentIndex` is a JS number that
can be `-1`, so it is an `Int`. -/
structure SearchState where
  query : String
  mode : SearchMode
  matchList : List ElemPath
  currentIndex : Int
deriving DecidableEq

/-- The JS `%` operator on integers is the truncated remainder. -/
def jsMod (a b : Int) : Int :=
  Int.tmod a b

/-- The state installed by the constructor, by `_clearSearch` and by
`_setNoMatch` (both methods assign the identical record). -/
def emptySearchState : SearchState :=
  { query := "", mode := .auto, matchList := [], currentIndex := -1 }

/-- `_navigateNext`: no-op on an empty match list, else advance with
wraparound. -/
def navigateNext (s : SearchState) : SearchState :=
  if s.matchList.length = 0 then s
  else { s with currentIndex := jsMod (s.currentIndex + 1) (s.matchList.length : Int) }

/-- `_navigatePrev` from fuzzySearchTool.ts (modulo formulation). -/
def navigatePrev (s : SearchState) : SearchState :=
  if s.matchList.length = 0 then s
  else
    { s with currentIndex :=
        jsMod (s.currentIndex - 1 + (s.matchList.length : Int)) (s.matchList.length : Int) }

/-- `_navigatePrev` from src/unnamed/part_001 lines 266-277 (conditional
formulation: `currentIndex <= 0 ? length - 1 : currentIndex - 1`). -/
def navigatePrevAlt (s : SearchState) : SearchState :=
  if s.matchList.length = 0 then s
  else
    { s with currentIndex :=
        if s.currentIndex ≤ 0 then (s.matchList.length : Int) - 1 else s.currentIndex - 1 }

/-- The state written by `_performSearchAsync` when a search completes with
`matches`: `currentIndex = matches.length > 0 ? 0 : -1`. -/
def completedState (sq : String) (m : SearchMode) (found : List ElemPath) : SearchState :=
  { query := sq, mode := m, matchList := found,
    currentIndex := if found.length > 0 then 0 else -1 }

/-- The `SearchState` invariant stated by the spec: `currentIndex` is `-1`
iff `matches` is empty, otherwise `0 <= currentIndex < matches.length`. -/
def searchStateInv (s : SearchState) : Prop :=
  (s.currentIndex = -1 ↔ s.matchList = []) ∧
    (s.matchList ≠ [] → 0 ≤ s.currentIndex ∧ s.currentIndex < (s.matchList.length : Int))

-- ===========================================================================
-- Mode detector (`_detectSearchMode`, fuzzySearchTool.ts lines 388-421)
-- ===========================================================================

/-- Rule 1: `query.startsWith('/aria:')`. -/
def ruleAriaColon (q : String) : Bool :=
  jsStartsWith q "/aria:"

/-- Cleaned query of rule 1: `query.slice(6).trim()`. -/
def cleanAria (q : String) : String :=
  jsTrim (jsSliceFrom q 6)

/-- Rule 2: `query.startsWith('- ') || /^-\s+\w+/.test(query)` (YAML-style
aria). The regex demands a leading dash, one or more whitespace characters,
then a word character; `\s` and `\w` are disjoint so the greedy match is
exact. -/
def ruleYaml (q : String) : Bool :=
  jsStartsWith q "- " ||
    (match q.data with
      | '-' :: c :: rest =>
        isJsSpace c &&
          (match rest.dropWhile isJsSpace with
            | d :: _ => isJsWordChar d
            | [] => false)
      | _ => false)

/-- Rule 3: fully wrapped in matching double or single quotes. -/
def ruleQuoted (q : String) : Bool :=
  (jsStartsWith q "\"" && jsEndsWith q "\"") ||
    (jsStartsWith q "\x27" && jsEndsWith q "\x27")

/-- Rule 4, first pattern:
`/^(getBy|locator|page\.|#|\[|text=|role=|label=|placeholder=)/i`. -/
def ruleLocatorAlts (q : String) : Bool :=
  let l := jsToLower q
  jsStartsWith l "getby" || jsStartsWith l "locator" || jsStartsWith l "page." ||
    jsStartsWith l "#" || jsStartsWith l "[" || jsStartsWith l "text=" ||
    jsStartsWith l "role=" || jsStartsWith l "label=" || jsStartsWith l "placeholder="

/-- Rule 4, second pattern: `/^[a-z-]+\s*=/i` (attribute selectors such as
`data-testid=`): a nonempty run of letters or dashes, optional whitespace,
then `=`. The character classes are disjoint, so the greedy match is exact. -/
def ruleLocatorAttr (q : String) : Bool :=
  let run := q.data.takeWhile (fun c => isAsciiLetter c || c = '-')
  (!run.isEmpty) &&
    (match (q.data.drop run.length).dropWhile isJsSpace with
      | '=' :: _ => true
      | _ => false)

/-- Rule 4: the locator-pattern test. -/
def ruleLocator (q : String) : Bool :=
  ruleLocatorAlts q || ruleLocatorAttr q

/-- `_detectSearchMode` (fuzzySearchTool.ts lines 388-421): pure, total and
deterministic by construction; the rules are tried in the fixed source
order and the first applicable one wins. -/
def detectSearchMode (q : String) : SearchMode × String :=
  if ruleAriaColon q then (.aria, cleanAria q)
  else if ruleYaml q then (.aria, q)
  else if ruleQuoted q then (.text, jsSliceInner q)
  else if ruleLocator q then (.locator, q)
  else (.auto, q)

-- ===========================================================================
-- The DOM model and `_searchByText` (fuzzySearchTool.ts lines 465-503)
-- ===========================================================================

/-- The element subtree under `document.body`: each element carries the text
it contributes directly plus its child elements. -/
inductive Dom where
  | node (ownText : String) (children : List Dom)

mutual

/-- The normalized text of an element, as computed by the external
`elementText` utility: the concatenation of all text in its subtree.
(The per-invocation `_textCache` is a memoization of exactly this value and
is semantically transparent; it is cleared at the start of every call.) -/
def subtreeChars : Dom → List Char
  | .node s cs => s.data ++ childrenChars cs

/-- Concatenated subtree text of a list of elements. -/
def childrenChars : List Dom → List Char
  | [] => []
  | c :: cs => subtreeChars c ++ childrenChars cs

end

mutual

/-- The `TreeWalker` visit sequence starting at the element with path `p`:
the element itself, then its children depth-first (document pre-order). -/
def walkNode (p : ElemPath) : Dom → List (ElemPath × Dom)
  | .node s cs => (p, Dom.node s cs) :: walkChildren p 0 cs

/-- Walk the children of an element at path `p`, the next child having
index `i`. -/
def walkChildren (p : ElemPath) (i : Nat) : List Dom → List (ElemPath × Dom)
  | [] => []
  | c :: cs => walkNode (p ++ [i]) c ++ walkChildren p (i + 1) cs

end

/-- The elements visited by
`createTreeWalker(document.body, NodeFilter.SHOW_ELEMENT)`: all proper
descendants of `body` in document order (`nextNode` never yields the root). -/
def domWalk : Dom → List (ElemPath × Dom)
  | .node _ cs => walkChildren [] 0 cs

/-- `Element.contains`: `containsPath a b` iff the element at `b` is `a`
itself or a descendant of `a`, i.e. `a` is a path extension point of `b`. -/
def containsPath : ElemPath → ElemPath → Bool
  | [], _ => true
  | _ :: _, [] => false
  | a :: as, b :: bs => a = b && containsPath as bs

/-- Strict document (pre)order on element paths: an ancestor precedes its
descendants, and siblings order by child index. `compareDocumentPosition`
reports `DOCUMENT_POSITION_FOLLOWING` on `(a, b)` exactly when
`pathLt a b`. -/
def pathLt : ElemPath → ElemPath → Bool
  | [], [] => false
  | [], _ :: _ => true
  | _ :: _, [] => false
  | a :: as, b :: bs => decide (a < b) || (decide (a = b) && pathLt as bs)

/-- One iteration of the result-accumulation loop of `_searchByText`: if the
visited element matches, discard it when a more specific match is already
present, otherwise splice out all its ancestors and push it. -/
def matchStep (normQ : List Char) (results : List ElemPath) (pe : ElemPath × Dom) : List ElemPath :=
  if listSubstr normQ ((subtreeChars pe.2).map jsLowerChar) then
    if results.any (fun r => containsPath pe.1 r) then results
    else results.filter (fun r => !containsPath r pe.1) ++ [pe.1]
  else results

/-- The accumulation loop of `_searchByText` over the walker sequence. -/
def collectMatches (normQ : List Char) (walk : List (ElemPath × Dom)) : List ElemPath :=
  walk.foldl (matchStep normQ) []

/-- Insert into a list sorted by strict document order; together with
`sortByDoc` this realizes
`results.sort((a, b) => a.compareDocumentPosition(b) & FOLLOWING ? -1 : 1)`:
the comparator is a strict total order on the (duplicate-free) results, so
the JS sort result is the unique ordering by `pathLt`. -/
def insertDoc (e : ElemPath) : List ElemPath → List ElemPath
  | [] => [e]
  | x :: xs => if pathLt e x then e :: x :: xs else x :: insertDoc e xs

/-- Sorting by document order (see `insertDoc`). -/
def sortByDoc : List ElemPath → List ElemPath
  | [] => []
  | x :: xs => insertDoc x (sortByDoc xs)

/-- `_searchByText` (fuzzySearchTool.ts lines 465-503): lower-case the
query, walk all elements under `body`, accumulate most-specific matches,
and sort the result by document order. -/
def searchByText (body : Dom) (textQuery : String) : List ElemPath :=
  sortByDoc (collectMatches (textQuery.data.map jsLowerChar) (domWalk body))

-- ===========================================================================
-- External collaborators and the strategy dispatcher
-- (fuzzySearchTool.ts lines 234-280, 423-462, 505-511)
-- ===========================================================================

/-- The resolved value of the `__pw_parseAriaTemplate` binding:
`{ error?, fragment? }`. -/
structure AriaParseResult where
  error : Option String
  fragment : Option String

/-- The external collaborators consumed by the tool, at their interface
boundary: the locator/selector engine, the optional aria-template binding,
the aria matcher, and the document body. A fallible call is an `Except`
whose `error` case models a thrown exception / rejected promise. -/
structure Env where
  body : Dom
  locatorToSelector : String → Except String String
  parseSelector : String → Except String String
  querySelectorAll : String → Except String (List ElemPath)
  ariaBinding : Option (String → Except String AriaParseResult)
  ariaMatchAll : String → Except String (List ElemPath)

/-- The body of `_searchByLocator` before its `try/catch`:
`locatorOrSelectorAsSelector`, then `parseSelector`, then
`querySelectorAll`; any of the three may throw. -/
def searchByLocatorE (env : Env) (q : String) : Except String (List ElemPath) := do
  let sel ← env.locatorToSelector q
  let parsed ← env.parseSelector sel
  env.querySelectorAll parsed

/-- `_searchByLocator` (lines 423-439): the `catch` converts any failure
into an empty element list. -/
def searchByLocator (env : Env) (q : String) : List ElemPath :=
  match searchByLocatorE env q with
  | .ok r => r
  | .error _ => []

/-- The body of `_searchByAriaAsync` before its `try/catch`: an absent
binding, a reported parse error, or a missing fragment give an empty
result; otherwise the aria matcher is queried (and may throw). -/
def searchByAriaE (env : Env) (q : String) : Except String (List ElemPath) :=
  match env.ariaBinding with
  | none => .ok []
  | some parseAriaTemplate => do
    let result ← parseAriaTemplate q
    if result.error.isSome || result.fragment.isNone then pure []
    else env.ariaMatchAll (result.fragment.getD "")

/-- `_searchByAriaAsync` (lines 441-462): the `catch` converts any failure
into an empty element list. -/
def searchByAria (env : Env) (q : String) : List ElemPath :=
  match searchByAriaE env q with
  | .ok r => r
  | .error _ => []

/-- `_searchAutoAsync` (lines 505-511): locator first, text fallback. -/
def searchAuto (env : Env) (q : String) : List ElemPath :=
  let locatorResults := searchByLocator env q
  if locatorResults.length > 0 then locatorResults
  else searchByText env.body q

/-- The `switch (mode)` dispatch inside `_performSearchAsync`. -/
def runStrategy (env : Env) (mode : SearchMode) (sq : String) : List ElemPath :=
  match mode with
  | .locator => searchByLocator env sq
  | .aria => searchByAria env sq
  | .text => searchByText env.body sq
  | .auto => searchAuto env sq

-- ===========================================================================
-- UI projection (`_updateUI` lines 314-335, `_updateHighlight` lines
-- 337-366, `_setNoMatch` lines 368-376, `_clearSearch` lines 378-386)
-- ===========================================================================

/-- The UI surface written by the tool: the counter text, the `no-match`
class on the input, and the highlight overlay (`none` means cleared,
`some e` means the single current-match entry points at `e`). -/
structure UiState where
  counter : String
  noMatch : Bool
  highlight : Option ElemPath
deriving DecidableEq

/-- The UI after `_clearSearch` (and, except for the `no-match` flag being
set instead of removed, `_setNoMatch`). -/
def clearedUi : UiState :=
  { counter := "", noMatch := false, highlight := none }

/-- `_updateUI` followed by `_updateHighlight`, as a pure projection of the
current input value and state: the counter is `"{i+1}/{n}"` when matches
exist, the `no-match` class is set iff the query is nonempty but matchless,
and only the current match is highlighted. -/
def uiProject (input : String) (s : SearchState) : UiState :=
  { counter :=
      if s.matchList.length = 0 then ""
      else toString (s.currentIndex + 1) ++ "/" ++ toString s.matchList.length
    noMatch := s.matchList.length = 0 && jsTrim input ≠ ""
    highlight :=
      if s.matchList.length = 0 || s.currentIndex < 0 then none
      else s.matchList.get? s.currentIndex.toNat }

/-- A single debounced search ran to completion against a quiescent
environment (`_performSearchAsync` lines 234-280 plus the UI updates it
triggers): empty trimmed query clears; otherwise detect the mode, run the
strategy, and install the completed state. -/
def performSearchPure (env : Env) (input : String) : SearchState × UiState :=
  let query := jsTrim input
  if query = "" then (emptySearchState, clearedUi)
  else
    let md := detectSearchMode query
    let found := runStrategy env md.1 md.2
    let st := completedState md.2 md.1 found
    (st, uiProject input st)

-- ===========================================================================
-- The debounce scheduler as an event machine
-- (`_onKeyDown` lines 201-218, `_onSearchInput` lines 220-232,
-- `_performSearchAsync` lines 234-280)
-- ===========================================================================

/-- `SEARCH_DEBOUNCE_DELAY`: the 150 time-unit debounce used by
`_onSearchInput`. -/
def debounceDelayMs : Nat := 150

/-- The whole tool between events: the input value, the pending debounce
timer (if any), how many search invocations have started, the in-flight
aria searches awaiting their binding round-trip, the search state and the
UI. `invocations` and `lastApplied` are specification instrumentation: they
record which invocation most recently started and which invocation most
recently wrote `state`; the code itself keeps no such token, which is
exactly what claim C1 is about. -/
structure Tool where
  input : String
  timer : Option Nat
  invocations : Nat
  pending : List (Nat × String)
  state : SearchState
  ui : UiState
  lastApplied : Nat

/-- The tool as installed: empty input, no timer, empty state. -/
def tool0 : Tool :=
  { input := "", timer := none, invocations := 0, pending := [],
    state := emptySearchState, ui := clearedUi, lastApplied := 0 }

/-- The externally observable events: an `input` event after the user edits
the field, the Escape key, the debounce timer firing, and the resolution of
the i-th in-flight aria parse round-trip. -/
inductive Ev where
  | inputEv (v : String)
  | escape
  | timerFire
  | ariaResolve (i : Nat)

/-- A search invocation completes with `found`: `_performSearchAsync` writes
the state unconditionally and refreshes UI and highlight. -/
def applyResult (t : Tool) (inv : Nat) (m : SearchMode) (sq : String)
    (found : List ElemPath) : Tool :=
  let st := completedState sq m found
  { t with state := st, ui := uiProject t.input st, lastApplied := inv }

/-- One event step of the tool. `inputEv` only cancels and re-arms the
debounce timer (`_onSearchInput`); Escape empties the input and clears
synchronously, leaving a pending timer armed (`_onKeyDown`); a timer firing
starts `_performSearchAsync`, which completes synchronously for the
locator/text/auto strategies and suspends on the aria binding round-trip;
an aria resolution completes its invocation with no staleness check. -/
def step (env : Env) (t : Tool) : Ev → Tool
  | .inputEv v => { t with input := v, timer := some debounceDelayMs }
  | .escape => { t with input := "", state := emptySearchState, ui := clearedUi }
  | .timerFire =>
    match t.timer with
    | none => t
    | some _ =>
      let t1 := { t with timer := none }
      let query := jsTrim t1.input
      if query = "" then { t1 with state := emptySearchState, ui := clearedUi }
      else
        let inv := t1.invocations + 1
        let t2 := { t1 with invocations := inv }
        let md := detectSearchMode query
        match md.1 with
        | .locator => applyResult t2 inv .locator md.2 (searchByLocator env md.2)
        | .text => applyResult t2 inv .text md.2 (searchByText env.body md.2)
        | .auto => applyResult t2 inv .auto md.2 (searchAuto env md.2)
        | .aria =>
          match env.ariaBinding with
          | none => applyResult t2 inv .aria md.2 []
          | some _ => { t2 with pending := t2.pending ++ [(inv, md.2)] }
  | .ariaResolve i =>
    match t.pending.get? i with
    | none => t
    | some p =>
      let t1 := { t with pending := t.pending.eraseIdx i }
      applyResult t1 p.1 .aria p.2 (searchByAria env p.2)

/-- Run a sequence of events from a tool state. -/
def runTrace (env : Env) (t : Tool) (evs : List Ev) : Tool :=
  evs.foldl (step env) t

-- ===========================================================================
-- Arithmetic helpers for the JS remainder
-- ===========================================================================

/-- On nonnegative operands the JS truncated remainder agrees with the
euclidean remainder. -/
theorem jsMod_eq_emod (a b : Int) (ha : 0 ≤ a) (hb : 0 ≤ b) : jsMod a b = a % b := by
  obtain ⟨m, rfl⟩ := Int.eq_ofNat_of_zero_le ha
  obtain ⟨n, rfl⟩ := Int.eq_ofNat_of_zero_le hb
  rfl

/-- Range of the JS remainder on a nonnegative dividend and a positive
divisor. -/
theorem jsMod_bounds (a b : Int) (ha : 0 ≤ a) (hb : 0 < b) :
    0 ≤ jsMod a b ∧ jsMod a b < b := by
  rw [jsMod_eq_emod a b ha (le_of_lt hb)]
  exact ⟨Int.emod_nonneg a (by omega), Int.emod_lt_of_pos a hb⟩

/-- Shifting under the euclidean remainder. -/
theorem emod_shift (x c n : Int) : (x % n + c) % n = (x + c) % n := by
  conv_lhs => rw [Int.add_emod]
  conv_rhs => rw [Int.add_emod]
  rw [Int.emod_emod_of_dvd x dvd_rfl]

-- ===========================================================================
-- Navigation lemmas
-- ===========================================================================

/-- Iterating `_navigateNext` k times adds k to the index modulo the match
count, and changes nothing else. -/
theorem navigateNext_iter (s : SearchState) (k : Nat) (h0 : s.matchList ≠ [])
    (h1 : 0 ≤ s.currentIndex) (h2 : s.currentIndex < (s.matchList.length : Int)) :
    navigateNext^[k] s =
      { s with currentIndex := (s.currentIndex + k) % (s.matchList.length : Int) } := by
  have hn : 0 < (s.matchList.length : Int) := by
    have := List.length_pos.mpr h0
    omega
  induction k with
  | zero =>
    have hidx : (s.currentIndex + (0 : Nat)) % (s.matchList.length : Int) = s.currentIndex := by
      rw [Nat.cast_zero, Int.add_zero]
      exact Int.emod_eq_of_lt h1 h2
    rw [Function.iterate_zero, id_eq, hidx]
  | succ k ih =>
    rw [Function.iterate_succ_apply', ih]
    have hnz : ¬ (({ s with currentIndex :=
        (s.currentIndex + k) % (s.matchList.length : Int) } : SearchState).matchList.length = 0) := by
      simpa using fun hh => h0 (List.length_eq_zero.mp hh)
    rw [navigateNext, if_neg hnz]
    have hge : 0 ≤ (s.currentIndex + k) % (s.matchList.length : Int) :=
      Int.emod_nonneg _ (by omega)
    have hjs : jsMod ((s.currentIndex + (k : Int)) % (s.matchList.length : Int) + 1)
        (s.matchList.length : Int) =
        (s.currentIndex + ((k + 1 : Nat) : Int)) % (s.matchList.length : Int) := by
      rw [jsMod_eq_emod _ _ (by omega) (by omega), emod_shift]
      congr 1
      push_cast
      ring
    simp only [hjs]

/-- Iterating `_navigatePrev` k times subtracts k from the index modulo the
match count (expressed by adding `k * (n - 1)`), and changes nothing else. -/
theorem navigatePrev_iter (s : SearchState) (k : Nat) (h0 : s.matchList ≠ [])
    (h1 : 0 ≤ s.currentIndex) (h2 : s.currentIndex < (s.matchList.length : Int)) :
    navigatePrev^[k] s =
      { s with currentIndex :=
          (s.currentIndex + k * ((s.matchList.length : Int) - 1)) %
            (s.matchList.length : Int) } := by
  have hn : 0 < (s.matchList.length : Int) := by
    have := List.length_pos.mpr h0
    omega
  induction k with
  | zero =>
    have hidx : (s.currentIndex + (0 : Nat) * ((s.matchList.length : Int) - 1)) %
        (s.matchList.length : Int) = s.currentIndex := by
      rw [Nat.cast_zero, zero_mul, Int.add_zero]
      exact Int.emod_eq_of_lt h1 h2
    rw [Function.iterate_zero, id_eq, hidx]
  | succ k ih =>
    rw [Function.iterate_succ_apply', ih]
    have hnz : ¬ (({ s with currentIndex :=
        (s.currentIndex + k * ((s.matchList.length : Int) - 1)) %
          (s.matchList.length : Int) } : SearchState).matchList.length = 0) := by
      simpa using fun hh => h0 (List.length_eq_zero.mp hh)
    rw [navigatePrev, if_neg hnz]
    have hge : 0 ≤ (s.currentIndex + k * ((s.matchList.length : Int) - 1)) %
        (s.matchList.length : Int) := Int.emod_nonneg _ (by omega)
    have hjs : jsMod ((s.currentIndex + (k : Int) * ((s.matchList.length : Int) - 1)) %
          (s.matchList.length : Int) - 1 + (s.matchList.length : Int))
        (s.matchList.length : Int) =
        (s.currentIndex + ((k + 1 : Nat) : Int) * ((s.matchList.length : Int) - 1)) %
          (s.matchList.length : Int) := by
      rw [jsMod_eq_emod _ _ (by omega) (by omega)]
      have harr : (s.currentIndex + (k : Int) * ((s.matchList.length : Int) - 1)) %
            (s.matchList.length : Int) - 1 + (s.matchList.length : Int) =
          (s.currentIndex + (k : Int) * ((s.matchList.length : Int) - 1)) %
            (s.matchList.length : Int) + ((s.matchList.length : Int) - 1) := by
        ring
      rw [harr, emod_shift]
      congr 1
      push_cast
      ring
    simp only [hjs]

/-- C5. With `n > 0` matches and `0 <= currentIndex < n`, `n` applications
of `next` return `currentIndex` to its starting value, and likewise `n`
applications of `prev`; on an empty match list both `next` and `prev` are
no-ops that leave the state unchanged. -/
theorem C5_navigation_wraparound (s : SearchState) :
    (s.matchList = [] → navigateNext s = s ∧ navigatePrev s = s) ∧
      (0 ≤ s.currentIndex → s.currentIndex < (s.matchList.length : Int) →
        navigateNext^[s.matchList.length] s = s ∧
          navigatePrev^[s.matchList.length] s = s) := by
  constructor
  · intro h
    have hz : s.matchList.length = 0 := by simp [h]
    constructor
    · rw [navigateNext, if_pos hz]
    · rw [navigatePrev, if_pos hz]
  · intro h1 h2
    have h0 : s.matchList ≠ [] := by
      intro hh
      rw [hh] at h2
      simp at h2
      omega
    have hn : 0 < (s.matchList.length : Int) := by
      have := List.length_pos.mpr h0
      omega
    constructor
    · rw [navigateNext_iter s s.matchList.length h0 h1 h2]
      have hidx : (s.currentIndex + (s.matchList.length : Int)) % (s.matchList.length : Int) =
          s.currentIndex := by
        have hself : (s.currentIndex + (s.matchList.length : Int)) % (s.matchList.length : Int) =
            s.currentIndex % (s.matchList.length : Int) := by
          have : s.currentIndex + (s.matchList.length : Int) =
              s.currentIndex + 1 * (s.matchList.length : Int) := by ring
          rw [this, Int.add_mul_emod_self]
        rw [hself, Int.emod_eq_of_lt h1 h2]
      rw [hidx]
    · rw [navigatePrev_iter s s.matchList.length h0 h1 h2]
      have hidx : (s.currentIndex +
            (s.matchList.length : Int) * ((s.matchList.length : Int) - 1)) %
            (s.matchList.length : Int) = s.currentIndex := by
        have hcomm : s.currentIndex +
            (s.matchList.length : Int) * ((s.matchList.length : Int) - 1) =
            s.currentIndex + ((s.matchList.length : Int) - 1) * (s.matchList.length : Int) := by
          ring
        rw [hcomm, Int.add_mul_emod_self, Int.emod_eq_of_lt h1 h2]
      rw [hidx]

/-- A concrete two-match active state used by the C5 witness. -/
def c5state : SearchState :=
  { query := "q", mode := .text, matchList := [[0], [1]], currentIndex := 1 }

/-- Witness for C5 on a concrete two-match state. -/
theorem C5_navigation_wraparound_witness :
    (0 : Int) ≤ c5state.currentIndex ∧
      c5state.currentIndex < (c5state.matchList.length : Int) ∧
      navigateNext^[c5state.matchList.length] c5state = c5state :=
  ⟨by decide, by decide,
    ((C5_navigation_wraparound c5state).2 (by decide) (by decide)).1⟩

/-- C6. Every state-producing operation preserves (or establishes) the
`SearchState` invariant: search completion (`completedState`), `next`,
`prev`, and the clear / no-match reset (`emptySearchState`, assigned
identically by `_clearSearch` and `_setNoMatch`). -/
theorem C6_invariant_preserved (s : SearchState) (sq : String) (m : SearchMode)
    (found : List ElemPath) (h : searchStateInv s) :
    searchStateInv (completedState sq m found) ∧ searchStateInv (navigateNext s) ∧
      searchStateInv (navigatePrev s) ∧ searchStateInv emptySearchState := by
  refine ⟨?_, ?_, ?_, ?_⟩
  · cases found with
    | nil => exact ⟨by simp [completedState], by simp [completedState]⟩
    | cons x xs =>
      constructor
      · simp [completedState]
      · intro _
        constructor
        · simp [completedState]
        · simp [completedState]
  · by_cases hz : s.matchList.length = 0
    · rw [navigateNext, if_pos hz]
      exact h
    · have h0 : s.matchList ≠ [] := fun hh => hz (by simp [hh])
      obtain ⟨hge, hlt⟩ := h.2 h0
      rw [navigateNext, if_neg hz]
      have hb := jsMod_bounds (s.currentIndex + 1) (s.matchList.length : Int)
        (by omega) (by simp; omega)
      constructor
      · constructor
        · intro hh
          simp at hh
          omega
        · intro hh
          exact absurd hh h0
      · intro _
        simpa using hb
  · by_cases hz : s.matchList.length = 0
    · rw [navigatePrev, if_pos hz]
      exact h
    · have h0 : s.matchList ≠ [] := fun hh => hz (by simp [hh])
      obtain ⟨hge, hlt⟩ := h.2 h0
      rw [navigatePrev, if_neg hz]
      have hb := jsMod_bounds (s.currentIndex - 1 + (s.matchList.length : Int))
        (s.matchList.length : Int) (by omega) (by simp; omega)
      constructor
      · constructor
        · intro hh
          simp at hh
          omega
        · intro hh
          exact absurd hh h0
      · intro _
        simpa using hb
  · exact ⟨by simp [emptySearchState], by simp [emptySearchState]⟩

/-- Witness for C6 at a concrete active state. -/
theorem C6_invariant_preserved_witness :
    searchStateInv c5state ∧ searchStateInv (navigateNext c5state) :=
  ⟨⟨by decide, fun _ => by decide⟩,
    (C6_invariant_preserved c5state "q" .text [[0]]
      ⟨by decide, fun _ => by decide⟩).2.1⟩

/-- C10. On every active state (`n > 0`, `0 <= currentIndex < n`) the
modulo formulation of `_navigatePrev` (fuzzySearchTool.ts) and the
conditional formulation (part_001) produce identical resulting states. -/
theorem C10_navigatePrev_equivalent (s : SearchState)
    (h1 : 0 ≤ s.currentIndex) (h2 : s.currentIndex < (s.matchList.length : Int)) :
    navigatePrev s = navigatePrevAlt s := by
  by_cases hz : s.matchList.length = 0
  · rw [navigatePrev, navigatePrevAlt, if_pos hz, if_pos hz]
  · rw [navigatePrev, navigatePrevAlt, if_neg hz, if_neg hz]
    have hn : 0 < (s.matchList.length : Int) := by simp; omega
    have hval : jsMod (s.currentIndex - 1 + (s.matchList.length : Int))
        (s.matchList.length : Int) =
        if s.currentIndex ≤ 0 then (s.matchList.length : Int) - 1
        else s.currentIndex - 1 := by
      rw [jsMod_eq_emod _ _ (by omega) (by omega)]
      by_cases hi : s.currentIndex ≤ 0
      · have hi0 : s.currentIndex = 0 := by omega
        rw [if_pos hi, hi0]
        have : (0 : Int) - 1 + (s.matchList.length : Int) =
            (s.matchList.length : Int) - 1 := by ring
        rw [this, Int.emod_eq_of_lt (by omega) (by omega)]
      · rw [if_neg hi]
        have harr : s.currentIndex - 1 + (s.matchList.length : Int) =
            (s.currentIndex - 1) + 1 * (s.matchList.length : Int) := by ring
        rw [harr, Int.add_mul_emod_self, Int.emod_eq_of_lt (by omega) (by omega)]
    rw [hval]

/-- Witness for C10 at a concrete active state. -/
theorem C10_navigatePrev_equivalent_witness :
    (0 : Int) ≤ c5state.currentIndex ∧
      c5state.currentIndex < (c5state.matchList.length : Int) ∧
      navigatePrev c5state = navigatePrevAlt c5state :=
  ⟨by decide, by decide, C10_navigatePrev_equivalent c5state (by decide) (by decide)⟩

/-- C4. `_detectSearchMode` is a pure total function (a Lean `def`, hence
deterministic and never failing); on the sample inputs it classifies
`/aria: foo` as aria with cleaned query `foo`, `"Submit"` as text with
cleaned query `Submit`, `#id` as locator, and `hello` as auto; and the
rules are tried in the fixed order aria-prefix, YAML-list-like,
quote-wrapped, locator-pattern, auto, the first applicable rule winning. -/
theorem C4_mode_detector (q : String) :
    detectSearchMode "/aria: foo" = (SearchMode.aria, "foo") ∧
      detectSearchMode "\"Submit\"" = (SearchMode.text, "Submit") ∧
      detectSearchMode "#id" = (SearchMode.locator, "#id") ∧
      detectSearchMode "hello" = (SearchMode.auto, "hello") ∧
      (ruleAriaColon q = true → detectSearchMode q = (SearchMode.aria, cleanAria q)) ∧
      (ruleAriaColon q = false → ruleYaml q = true →
        detectSearchMode q = (SearchMode.aria, q)) ∧
      (ruleAriaColon q = false → ruleYaml q = false → ruleQuoted q = true →
        detectSearchMode q = (SearchMode.text, jsSliceInner q)) ∧
      (ruleAriaColon q = false → ruleYaml q = false → ruleQuoted q = false →
        ruleLocator q = true → detectSearchMode q = (SearchMode.locator, q)) ∧
      (ruleAriaColon q = false → ruleYaml q = false → ruleQuoted q = false →
        ruleLocator q = false → detectSearchMode q = (SearchMode.auto, q)) := by
  refine ⟨by decide, by decide, by decide, by decide, ?_, ?_, ?_, ?_, ?_⟩
  · intro h1
    simp [detectSearchMode, h1]
  · intro h1 h2
    simp [detectSearchMode, h1, h2]
  · intro h1 h2 h3
    simp [detectSearchMode, h1, h2, h3]
  · intro h1 h2 h3 h4
    simp [detectSearchMode, h1, h2, h3, h4]
  · intro h1 h2 h3 h4
    simp [detectSearchMode, h1, h2, h3, h4]

/-- Witness for C4: the aria-prefix rule fires with priority on a concrete
query. -/
theorem C4_mode_detector_witness :
    ruleAriaColon "/aria: x" = true ∧
      detectSearchMode "/aria: x" = (SearchMode.aria, cleanAria "/aria: x") :=
  ⟨by decide, (C4_mode_detector "/aria: x").2.2.2.2.1 (by decide)⟩

-- ===========================================================================
-- Error isolation and the no-match pipeline outcome
-- ===========================================================================

/-- When the chosen strategy yields no elements, the completed pipeline
installs an empty match list, raises the no-match flag (the query being
nonempty), and clears the highlight. -/
theorem pipeline_empty_outcome (env : Env) (input lq : String) (m : SearchMode)
    (hq : jsTrim input ≠ "") (hd : detectSearchMode (jsTrim input) = (m, lq))
    (hr : runStrategy env m lq = []) :
    (performSearchPure env input).1.matchList = [] ∧
      (performSearchPure env input).2.noMatch = true ∧
      (performSearchPure env input).2.highlight = none := by
  simp [performSearchPure, hq, hd, hr, completedState, uiProject]

/-- C7. Every failure inside a single strategy is caught inside that
strategy and converted into an empty match list plus the no-match UI
state, and no exception crosses the dispatcher (the pipeline is a total
function). The cases: a thrown locator parse/query error; a
thrown/rejected aria call; an absent aria binding; and an aria parse that
reports an error or produces no fragment. For each case the first group of
conjuncts states the empty match list and the second group states the full
dispatched outcome: empty result, no-match flag raised, highlight
cleared. -/
theorem C7_error_isolation (env : Env) (input lq e : String)
    (parse : String → Except String AriaParseResult) (r : AriaParseResult) :
    (searchByLocatorE env lq = .error e → searchByLocator env lq = []) ∧
      (searchByAriaE env lq = .error e → searchByAria env lq = []) ∧
      (env.ariaBinding = none → searchByAria env lq = []) ∧
      (env.ariaBinding = some parse → parse lq = .ok r →
        r.error.isSome = true ∨ r.fragment.isNone = true → searchByAria env lq = []) ∧
      (jsTrim input ≠ "" → detectSearchMode (jsTrim input) = (SearchMode.locator, lq) →
        searchByLocatorE env lq = .error e →
        (performSearchPure env input).1.matchList = [] ∧
          (performSearchPure env input).2.noMatch = true ∧
          (performSearchPure env input).2.highlight = none) ∧
      (jsTrim input ≠ "" → detectSearchMode (jsTrim input) = (SearchMode.aria, lq) →
        searchByAriaE env lq = .error e →
        (performSearchPure env input).1.matchList = [] ∧
          (performSearchPure env input).2.noMatch = true ∧
          (performSearchPure env input).2.highlight = none) ∧
      (jsTrim input ≠ "" → detectSearchMode (jsTrim input) = (SearchMode.aria, lq) →
        env.ariaBinding = none →
        (performSearchPure env input).1.matchList = [] ∧
          (performSearchPure env input).2.noMatch = true ∧
          (performSearchPure env input).2.highlight = none) ∧
      (jsTrim input ≠ "" → detectSearchMode (jsTrim input) = (SearchMode.aria, lq) →
        env.ariaBinding = some parse → parse lq = .ok r →
        r.error.isSome = true ∨ r.fragment.isNone = true →
        (performSearchPure env input).1.matchList = [] ∧
          (performSearchPure env input).2.noMatch = true ∧
          (performSearchPure env input).2.highlight = none) := by
  have hloc : searchByLocatorE env lq = .error e → searchByLocator env lq = [] := by
    intro h
    unfold searchByLocator
    rw [h]
  have haria : searchByAriaE env lq = .error e → searchByAria env lq = [] := by
    intro h
    unfold searchByAria
    rw [h]
  have habsent : env.ariaBinding = none → searchByAria env lq = [] := by
    intro h
    unfold searchByAria searchByAriaE
    rw [h]
  have hparse : env.ariaBinding = some parse → parse lq = .ok r →
      r.error.isSome = true ∨ r.fragment.isNone = true → searchByAria env lq = [] := by
    intro hb hp hcase
    have hcond : r.error.isSome = true ∨ r.fragment = none := by
      rcases hcase with h | h
      · exact Or.inl h
      · exact Or.inr (Option.isNone_iff_eq_none.mp h)
    have hE : searchByAriaE env lq = .ok [] := by
      unfold searchByAriaE
      rw [hb]
      simp [hp, hcond, bind, Except.bind, pure, Except.pure]
    unfold searchByAria
    rw [hE]
  refine ⟨hloc, haria, habsent, hparse, ?_, ?_, ?_, ?_⟩
  · intro hq hd he
    exact pipeline_empty_outcome env input lq .locator hq hd
      (by simpa [runStrategy] using hloc he)
  · intro hq hd he
    exact pipeline_empty_outcome env input lq .aria hq hd
      (by simpa [runStrategy] using haria he)
  · intro hq hd hb
    exact pipeline_empty_outcome env input lq .aria hq hd
      (by simpa [runStrategy] using habsent hb)
  · intro hq hd hb hp hcase
    exact pipeline_empty_outcome env input lq .aria hq hd
      (by simpa [runStrategy] using hparse hb hp hcase)

/-- An environment whose locator engine throws on every input, used as the
C7 witness. -/
def envErr : Env :=
  { body := Dom.node "" [],
    locatorToSelector := fun _ => .error "parse failure",
    parseSelector := fun s => .ok s,
    querySelectorAll := fun _ => .ok [],
    ariaBinding := none,
    ariaMatchAll := fun _ => .ok [] }

/-- A vacuous aria parse function passed where a C7 conjunct does not
involve the binding. -/
def dummyParse : String → Except String AriaParseResult :=
  fun _ => .ok { error := none, fragment := none }

/-- A vacuous aria parse result for the same purpose. -/
def dummyResult : AriaParseResult :=
  { error := none, fragment := none }

/-- Witness for C7: the throwing locator engine on the query `#x`, and the
absent aria binding on the aria-mode query `- x`, each ending in the
no-match outcome. -/
theorem C7_error_isolation_witness :
    jsTrim "#x" ≠ "" ∧
      detectSearchMode (jsTrim "#x") = (SearchMode.locator, "#x") ∧
      (performSearchPure envErr "#x").1.matchList = [] ∧
      (performSearchPure envErr "#x").2.noMatch = true ∧
      jsTrim "- x" ≠ "" ∧
      detectSearchMode (jsTrim "- x") = (SearchMode.aria, "- x") ∧
      (performSearchPure envErr "- x").1.matchList = [] ∧
      (performSearchPure envErr "- x").2.noMatch = true :=
  ⟨by decide, by decide,
    ((C7_error_isolation envErr "#x" "#x" "parse failure" dummyParse
      dummyResult).2.2.2.2.1 (by decide) (by decide) rfl).1,
    ((C7_error_isolation envErr "#x" "#x" "parse failure" dummyParse
      dummyResult).2.2.2.2.1 (by decide) (by decide) rfl).2.1,
    by decide, by decide,
    ((C7_error_isolation envErr "- x" "- x" "unused" dummyParse
      dummyResult).2.2.2.2.2.2.1 (by decide) (by decide) rfl).1,
    ((C7_error_isolation envErr "- x" "- x" "unused" dummyParse
      dummyResult).2.2.2.2.2.2.1 (by decide) (by decide) rfl).2.1⟩

-- ===========================================================================
-- C9: the doubled-double-quote query
-- ===========================================================================

/-- If no visited element's lower-cased text contains the query, the
accumulation loop of `_searchByText` leaves its accumulator unchanged. -/
theorem foldl_matchStep_all_miss (normQ : List Char) :
    ∀ (walk : List (ElemPath × Dom)) (acc : List ElemPath),
      (∀ pe ∈ walk, listSubstr normQ ((subtreeChars pe.2).map jsLowerChar) = false) →
      walk.foldl (matchStep normQ) acc = acc
  | [], _, _ => rfl
  | pe :: rest, acc, h => by
    have hpe : listSubstr normQ ((subtreeChars pe.2).map jsLowerChar) = false :=
      h pe (by simp)
    have hstep : matchStep normQ acc pe = acc := by
      unfold matchStep
      rw [if_neg (by simp [hpe])]
    rw [List.foldl_cons, hstep]
    exact foldl_matchStep_all_miss normQ rest acc (fun x hx => h x (by simp [hx]))

/-- The exact scenario query of the spec: the word nonexistent wrapped in
doubled double-quotes. -/
def c9query : String := "\"\"nonexistent\"\""

/-- C9 (amended). The detector classifies `c9query` as a text search for
the literal string `"nonexistent"` (quotes included); on every page none of
whose elements contains that literal text (case-insensitively), the search
completes with zero matches, the no-match flag set and the highlight
cleared. -/
theorem C9_nonexistent_query (env : Env)
    (h : ∀ pe ∈ domWalk env.body,
      listSubstr ("\"nonexistent\"".data.map jsLowerChar)
        ((subtreeChars pe.2).map jsLowerChar) = false) :
    (performSearchPure env c9query).1.matchList = [] ∧
      (performSearchPure env c9query).2.noMatch = true ∧
      (performSearchPure env c9query).2.highlight = none := by
  have hq : jsTrim c9query ≠ "" := by decide
  have hd : detectSearchMode (jsTrim c9query) = (SearchMode.text, "\"nonexistent\"") := by
    decide
  have hr : runStrategy env .text "\"nonexistent\"" = [] := by
    simp only [runStrategy, searchByText, collectMatches]
    rw [foldl_matchStep_all_miss _ (domWalk env.body) [] h]
    rfl
  exact pipeline_empty_outcome env c9query "\"nonexistent\"" .text hq hd hr

/-- A page whose text contains the literal string `"nonexistent"`; the
claimed for-every-page property fails on it. -/
def env9bad : Env :=
  { body := Dom.node "" [Dom.node "she said \"nonexistent\" twice" []],
    locatorToSelector := fun _ => .error "unused",
    parseSelector := fun s => .ok s,
    querySelectorAll := fun _ => .ok [],
    ariaBinding := none,
    ariaMatchAll := fun _ => .ok [] }

/-- Counterexample to C9 as stated: on `env9bad` the query `""nonexistent""`
yields one match, the no-match flag stays down and the highlight points at
the matched element — not the claimed empty result. -/
theorem C9_nonexistent_query_counterexample :
    (performSearchPure env9bad c9query).1.matchList = [[0]] ∧
      (performSearchPure env9bad c9query).2.noMatch = false ∧
      (performSearchPure env9bad c9query).2.highlight = some [0] := by
  decide

/-- A page free of the literal text `"nonexistent"`, used as the C9
witness. -/
def env9clean : Env :=
  { body := Dom.node "" [Dom.node "hello world" [Dom.node "button" []]],
    locatorToSelector := fun _ => .error "unused",
    parseSelector := fun s => .ok s,
    querySelectorAll := fun _ => .ok [],
    ariaBinding := none,
    ariaMatchAll := fun _ => .ok [] }

/-- Witness for the amended C9 on a concrete clean page. -/
theorem C9_nonexistent_query_witness :
    (performSearchPure env9clean c9query).1.matchList = [] ∧
      (performSearchPure env9clean c9query).2.noMatch = true :=
  ⟨(C9_nonexistent_query env9clean (by decide)).1,
    (C9_nonexistent_query env9clean (by decide)).2.1⟩

-- ===========================================================================
-- C1 and C8: the debounce scheduler in action
-- ===========================================================================

/-- An environment with a live aria binding (one round-trip per parse) and
a page containing the text `bees`, used to exercise the scheduler. -/
def env1 : Env :=
  { body := Dom.node "" [Dom.node "bees" []],
    locatorToSelector := fun _ => .error "no locator engine in this run",
    parseSelector := fun s => .ok s,
    querySelectorAll := fun _ => .ok [],
    ariaBinding := some (fun _ => .ok { error := none, fragment := some "frag" }),
    ariaMatchAll := fun _ => .ok [] }

/-- Search A (`- item`, aria mode, suspends awaiting the binding) is
scheduled and fires; search B (`"bees"`, text mode) is then scheduled,
fires and completes; finally A's binding round-trip resolves. -/
def staleTrace : List Ev :=
  [.inputEv "- item", .timerFire, .inputEv "\"bees\"", .timerFire, .ariaResolve 0]

/-- C1 evaluated on the code: after search B (invocation 2) completed with
its match, the late resolution of stale search A (invocation 1) is NOT
discarded — the tool has no generation token — and A's empty aria result
overwrites B's state, leaving the final state reflecting invocation 1
rather than the most recently scheduled invocation 2. -/
theorem C1_stale_result_overwrites :
    (runTrace env1 tool0 (staleTrace.take 4)).state.query = "bees" ∧
      (runTrace env1 tool0 (staleTrace.take 4)).state.matchList = [[0]] ∧
      (runTrace env1 tool0 staleTrace).invocations = 2 ∧
      (runTrace env1 tool0 staleTrace).lastApplied = 1 ∧
      (runTrace env1 tool0 staleTrace).state.query = "- item" ∧
      (runTrace env1 tool0 staleTrace).state.matchList = [] := by
  decide

/-- The tool right after search B completed, used by the C8
counterexample. -/
def toolB : Tool :=
  runTrace env1 tool0 [.inputEv "\"bees\"", .timerFire]

/-- Counterexample to C8 as stated: when the query becomes empty, the
`input` event does not reset the state synchronously — the old match list
survives and a fresh 150-unit debounce timer is armed; the reset only
happens once that timer fires. -/
theorem C8_empty_query_counterexample :
    (step env1 toolB (.inputEv "")).state.matchList = [[0]] ∧
      (step env1 toolB (.inputEv "")).state ≠ emptySearchState ∧
      (step env1 toolB (.inputEv "")).timer = some debounceDelayMs := by
  decide

/-- C8 (amended). Escape resets the search state and UI synchronously,
bypassing any pending debounce; an empty or whitespace-only query does NOT
bypass the debounce — its `input` event leaves the state untouched and arms
the 150-unit timer, and the reset happens when that timer fires. -/
theorem C8_escape_sync_empty_debounced (env : Env) (t : Tool) :
    (step env t .escape).state = emptySearchState ∧
      (step env t .escape).ui = clearedUi ∧
      (step env t (.inputEv "")).state = t.state ∧
      (step env t (.inputEv "")).timer = some debounceDelayMs ∧
      (t.timer.isSome = true → jsTrim t.input = "" →
        (step env t .timerFire).state = emptySearchState ∧
          (step env t .timerFire).ui = clearedUi) := by
  refine ⟨rfl, rfl, rfl, rfl, ?_⟩
  intro ht hq
  match hcase : t.timer with
  | none =>
    rw [hcase] at ht
    simp at ht
  | some d =>
    constructor
    · show (step env t .timerFire).state = emptySearchState
      simp [step, hcase, hq]
    · show (step env t .timerFire).ui = clearedUi
      simp [step, hcase, hq]

/-- A tool with a whitespace-only input and an armed timer, used as the C8
witness. -/
def c8tool : Tool :=
  { tool0 with input := " ", timer := some debounceDelayMs }

/-- Witness for the amended C8 at a concrete tool state. -/
theorem C8_escape_sync_empty_debounced_witness :
    c8tool.timer.isSome = true ∧ jsTrim c8tool.input = "" ∧
      (step env1 c8tool .timerFire).state = emptySearchState :=
  ⟨by decide, by decide,
    ((C8_escape_sync_empty_debounced env1 c8tool).2.2.2.2 (by decide) (by decide)).1⟩

-- ===========================================================================
-- C2 and C3: dedup and document-order invariants of `_searchByText`
-- ===========================================================================

/-- `Element.contains` is reflexive on paths. -/
theorem containsPath_self : ∀ p : ElemPath, containsPath p p = true
  | [] => rfl
  | x :: xs => by simp [containsPath, containsPath_self xs]

/-- Two elements are separated when neither contains the other. -/
def pathSep (a b : ElemPath) : Prop :=
  containsPath a b = false ∧ containsPath b a = false

/-- Separation is symmetric. -/
theorem pathSep_symm : Symmetric pathSep :=
  fun _ _ h => ⟨h.2, h.1⟩

/-- One accumulation step of `_searchByText` preserves pairwise
separation: a candidate contained in an existing result is dropped, and
otherwise every result containing the candidate is spliced out before the
candidate is pushed. -/
theorem matchStep_pairwise (normQ : List Char) (pe : ElemPath × Dom)
    (results : List ElemPath) (h : results.Pairwise pathSep) :
    (matchStep normQ results pe).Pairwise pathSep := by
  unfold matchStep
  split
  · split
    · exact h
    · rename_i hno
      refine List.pairwise_append.mpr ⟨h.sublist (List.filter_sublist results), ?_, ?_⟩
      · simp
      · intro a ha b hb
        rw [List.mem_singleton] at hb
        subst hb
        constructor
        · have := List.of_mem_filter ha
          simpa using this
        · have haR := List.mem_of_mem_filter ha
          by_contra hc
          apply hno
          refine List.any_eq_true.mpr ⟨a, haR, ?_⟩
          simp only [Bool.not_eq_false] at hc
          exact hc
  · exact h

/-- One accumulation step preserves freedom from duplicates: a candidate
already present is caught by the contains test (`contains` is reflexive). -/
theorem matchStep_nodup (normQ : List Char) (pe : ElemPath × Dom)
    (results : List ElemPath) (h : results.Nodup) :
    (matchStep normQ results pe).Nodup := by
  unfold matchStep
  split
  · split
    · exact h
    · refine List.Nodup.append (h.filter _) (by simp) ?_
      intro a ha hb
      rw [List.mem_singleton] at hb
      subst hb
      have := List.of_mem_filter ha
      rw [containsPath_self] at this
      simp at this
  · exact h

/-- The accumulated result list of `_searchByText` is pairwise separated. -/
theorem collectMatches_pairwise (normQ : List Char) (walk : List (ElemPath × Dom)) :
    (collectMatches normQ walk).Pairwise pathSep := by
  suffices hgen : ∀ acc : List ElemPath, acc.Pairwise pathSep →
      (walk.foldl (matchStep normQ) acc).Pairwise pathSep by
    exact hgen [] (by simp)
  induction walk with
  | nil => intro acc hacc; simpa using hacc
  | cons pe rest ih =>
    intro acc hacc
    rw [List.foldl_cons]
    exact ih _ (matchStep_pairwise normQ pe acc hacc)

/-- The accumulated result list of `_searchByText` has no duplicates. -/
theorem collectMatches_nodup (normQ : List Char) (walk : List (ElemPath × Dom)) :
    (collectMatches normQ walk).Nodup := by
  suffices hgen : ∀ acc : List ElemPath, acc.Nodup →
      (walk.foldl (matchStep normQ) acc).Nodup by
    exact hgen [] (by simp)
  induction walk with
  | nil => intro acc hacc; simpa using hacc
  | cons pe rest ih =>
    intro acc hacc
    rw [List.foldl_cons]
    exact ih _ (matchStep_nodup normQ pe acc hacc)

/-- Document order on paths is transitive. -/
theorem pathLt_trans : ∀ {a b c : ElemPath},
    pathLt a b = true → pathLt b c = true → pathLt a c = true
  | [], [], _, h1, _ => by simp [pathLt] at h1
  | [], _ :: _, [], _, h2 => by simp [pathLt] at h2
  | [], _ :: _, _ :: _, _, _ => by simp [pathLt]
  | _ :: _, [], _, h1, _ => by simp [pathLt] at h1
  | _ :: _, _ :: _, [], _, h2 => by simp [pathLt] at h2
  | x :: as, y :: bs, z :: cs, h1, h2 => by
    simp only [pathLt, Bool.or_eq_true, Bool.and_eq_true, decide_eq_true_eq] at h1 h2 ⊢
    rcases h1 with h1 | ⟨hxy, h1⟩
    · rcases h2 with h2 | ⟨hyz, h2⟩
      · exact Or.inl (by omega)
      · exact Or.inl (by omega)
    · rcases h2 with h2 | ⟨hyz, h2⟩
      · exact Or.inl (by omega)
      · exact Or.inr ⟨by omega, pathLt_trans h1 h2⟩

/-- Document order is total on distinct paths. -/
theorem pathLt_total : ∀ a b : ElemPath, a ≠ b → pathLt a b = true ∨ pathLt b a = true
  | [], [], h => absurd rfl h
  | [], _ :: _, _ => Or.inl (by simp [pathLt])
  | _ :: _, [], _ => Or.inr (by simp [pathLt])
  | x :: as, y :: bs, h => by
    by_cases hxy : x = y
    · subst hxy
      have hne : as ≠ bs := fun hh => h (by rw [hh])
      rcases pathLt_total as bs hne with hlt | hlt
      · exact Or.inl (by simp [pathLt, hlt])
      · exact Or.inr (by simp [pathLt, hlt])
    · rcases Nat.lt_or_ge x y with hl | hg
      · exact Or.inl (by simp only [pathLt, Bool.or_eq_true, decide_eq_true_eq]; omega)
      · have hyx : y < x := by omega
        exact Or.inr (by simp only [pathLt, Bool.or_eq_true, decide_eq_true_eq]; omega)

/-- Membership through `insertDoc`. -/
theorem mem_insertDoc {e y : ElemPath} : ∀ {l : List ElemPath},
    y ∈ insertDoc e l ↔ y = e ∨ y ∈ l
  | [] => by simp [insertDoc]
  | x :: xs => by
    unfold insertDoc
    split
    · simp [or_comm, or_assoc, or_left_comm]
    · rw [List.mem_cons, List.mem_cons, mem_insertDoc]
      tauto

/-- `insertDoc` permutes a cons. -/
theorem insertDoc_perm (e : ElemPath) : ∀ l : List ElemPath,
    (insertDoc e l).Perm (e :: l)
  | [] => by simp [insertDoc]
  | x :: xs => by
    unfold insertDoc
    split
    · exact List.Perm.refl _
    · exact ((insertDoc_perm e xs).cons x).trans (List.Perm.swap e x xs)

/-- `sortByDoc` permutes its input. -/
theorem sortByDoc_perm : ∀ l : List ElemPath, (sortByDoc l).Perm l
  | [] => List.Perm.refl _
  | x :: xs => by
    unfold sortByDoc
    exact (insertDoc_perm x (sortByDoc xs)).trans ((sortByDoc_perm xs).cons x)

/-- Inserting a fresh element into a strictly ordered list keeps it
strictly ordered. -/
theorem insertDoc_pairwise {e : ElemPath} : ∀ {l : List ElemPath},
    l.Pairwise (fun a b => pathLt a b = true) → (∀ y ∈ l, e ≠ y) →
    (insertDoc e l).Pairwise (fun a b => pathLt a b = true)
  | [], _, _ => by simp [insertDoc]
  | x :: xs, hp, hne => by
    unfold insertDoc
    split
    · rename_i hlt
      refine List.Pairwise.cons ?_ hp
      intro z hz
      rcases List.mem_cons.mp hz with rfl | hzxs
      · exact hlt
      · exact pathLt_trans hlt ((List.pairwise_cons.mp hp).1 z hzxs)
    · rename_i hnlt
      have hex : pathLt x e = true := by
        rcases pathLt_total e x (hne x (by simp)) with hcase | hcase
        · exact absurd hcase hnlt
        · exact hcase
      rcases List.pairwise_cons.mp hp with ⟨hx, hxs⟩
      refine List.pairwise_cons.mpr
        ⟨?_, insertDoc_pairwise hxs (fun y hy => hne y (by simp [hy]))⟩
      intro z hz
      rcases mem_insertDoc.mp hz with rfl | hzxs
      · exact hex
      · exact hx z hzxs

/-- Sorting a duplicate-free list yields a strictly increasing list in
document order. -/
theorem sortByDoc_pairwise : ∀ {l : List ElemPath}, l.Nodup →
    (sortByDoc l).Pairwise (fun a b => pathLt a b = true)
  | [], _ => by simp [sortByDoc]
  | x :: xs, h => by
    unfold sortByDoc
    rcases List.nodup_cons.mp h with ⟨hx, hxs⟩
    refine insertDoc_pairwise (sortByDoc_pairwise hxs) ?_
    intro y hy heq
    exact hx (heq ▸ (sortByDoc_perm xs).mem_iff.mp hy)

/-- C3. For every document and text query, the match list of
`_searchByText` is strictly increasing in document order: element `a`
precedes element `b` in the list exactly when `a` precedes `b` in the
document, independently of the discovery order during the walk. -/
theorem C3_matches_document_order (body : Dom) (q : String) :
    (searchByText body q).Pairwise (fun a b => pathLt a b = true) := by
  unfold searchByText
  exact sortByDoc_pairwise (collectMatches_nodup _ _)

/-- C2. For every document and text query, no element of the match list of
`_searchByText` contains another element of the list: only the most
specific (deepest) matching elements are kept. -/
theorem C2_matches_no_ancestor (body : Dom) (q : String) (a b : ElemPath)
    (ha : a ∈ searchByText body q) (hb : b ∈ searchByText body q) (hne : a ≠ b) :
    containsPath a b = false := by
  have hp : (searchByText body q).Pairwise pathSep := by
    unfold searchByText
    exact ((sortByDoc_perm _).pairwise_iff (fun hab => pathSep_symm hab)).mpr
      (collectMatches_pairwise _ _)
  exact (hp.forall pathSep_symm ha hb hne).1

/-- A page with two sibling elements both containing the query text, used
as the C2 witness. -/
def body2 : Dom :=
  Dom.node "" [Dom.node "hello" [], Dom.node "hello" []]

/-- Witness for C2: both siblings match and neither contains the other. -/
theorem C2_matches_no_ancestor_witness :
    ([0] : ElemPath) ∈ searchByText body2 "hello" ∧
      ([1] : ElemPath) ∈ searchByText body2 "hello" ∧
      containsPath [0] [1] = false :=
  ⟨by decide, by decide,
    C2_matches_no_ancestor body2 "hello" [0] [1] (by decide) (by decide) (by decide)⟩
